import Mathlib

/-!
Verification of the pomoradio core: the pomodoro phase state machine
(`usePomodoro`), the audio engine (`useAudioPlayer`), and the bounded
station-selection retry loop (`playRandomStation`), shallowly embedded
from the TypeScript source.
-/

namespace Pomoradio

/-! ## Pomodoro data model (types/pomodoro.ts) -/

/-- Phases of the pomodoro timer.  The source type also includes a
`paused` value that the engine never assigns; it is kept for fidelity. -/
inductive PomodoroPhase where
  | work
  | shortBreak
  | longBreak
  | pausedPhase
  deriving DecidableEq, Repr

/-- Settings record; durations of phases are in minutes, fade durations in
seconds. -/
structure PomodoroSettings where
  workDuration : Nat
  shortBreakDuration : Nat
  longBreakDuration : Nat
  sessionsUntilLongBreak : Nat
  fadeInDuration : Nat
  fadeOutDuration : Nat
  deriving DecidableEq, Repr

/-- Defaults from `DEFAULT_SETTINGS` in usePomodoro. -/
def DEFAULT_SETTINGS : PomodoroSettings :=
  { workDuration := 25
    shortBreakDuration := 5
    longBreakDuration := 15
    sessionsUntilLongBreak := 4
    fadeInDuration := 3
    fadeOutDuration := 3 }

/-- State of the pomodoro engine.  `timeRemaining` is in seconds; it is an
integer because the source decrements a JS number and compares with 0. -/
structure PomodoroState where
  phase : PomodoroPhase
  timeRemaining : Int
  isRunning : Bool
  completedSessions : Nat
  currentCycle : Nat
  deriving DecidableEq, Repr

/-- Initial state built in the `useState` initializer of usePomodoro. -/
def initialPomodoroState (set : PomodoroSettings) : PomodoroState :=
  { phase := .work
    timeRemaining := (set.workDuration * 60 : Nat)
    isRunning := false
    completedSessions := 0
    currentCycle := 1 }

/-- Transition rule `getNextPhase` of usePomodoro: from work, a long break
when `(completedSessions + 1) % sessionsUntilLongBreak === 0`, otherwise a
short break; from anything else, work. -/
def getNextPhase (set : PomodoroSettings) (currentPhase : PomodoroPhase)
    (completedSessions : Nat) : PomodoroPhase :=
  if currentPhase = .work then
    let isLongBreak := (completedSessions + 1) % set.sessionsUntilLongBreak = 0
    if isLongBreak then .longBreak else .shortBreak
  else .work

/-- Phase durations in seconds, `getDurationForPhase` of usePomodoro; the
default case of the source switch returns the work duration. -/
def getDurationForPhase (set : PomodoroSettings) (phase : PomodoroPhase) : Nat :=
  match phase with
  | .work => set.workDuration * 60
  | .shortBreak => set.shortBreakDuration * 60
  | .longBreak => set.longBreakDuration * 60
  | .pausedPhase => set.workDuration * 60

/-- Audio side effects requested by the timer: an asynchronous station
search (`playRandomStation()`) or a fade-out stop over the given number of
seconds (`audio.stopWithFade(d)`). -/
inductive SideEffect where
  | stationSearch
  | stopFade (seconds : Nat)
  deriving DecidableEq, Repr

/-- Effects emitted by one tick: the optional pre-transition side effect
fired when the decremented time equals 3, whether a phase transition
happened, and whether the break-to-work failsafe `audio.stop()` fired. -/
structure TickEffects where
  preTransition : Option SideEffect
  transitioned : Bool
  forceStop : Bool
  deriving DecidableEq, Repr

/-- One tick of the timer, from `tick` in usePomodoro.  `audioActive`
stands for `audio.isPlaying || audio.currentStation` read inside the
break-to-work branch. -/
def tick (set : PomodoroSettings) (audioActive : Bool) (prev : PomodoroState) :
    PomodoroState × TickEffects :=
  let newTimeRemaining := prev.timeRemaining - 1
  let pre : Option SideEffect :=
    if newTimeRemaining = 3 then
      if prev.phase = .work then some .stationSearch else some (.stopFade 3)
    else none
  if newTimeRemaining ≤ 0 then
    let nextPhase := getNextPhase set prev.phase prev.completedSessions
    let nextDuration := getDurationForPhase set nextPhase
    if prev.phase = .work then
      ({ prev with
          phase := nextPhase
          timeRemaining := nextDuration
          completedSessions := prev.completedSessions + 1 },
        { preTransition := pre, transitioned := true, forceStop := false })
    else
      ({ prev with
          phase := nextPhase
          timeRemaining := nextDuration
          currentCycle :=
            (if nextPhase = .work then prev.currentCycle + 1 else prev.currentCycle) },
        { preTransition := pre, transitioned := true, forceStop := audioActive })
  else
    ({ prev with timeRemaining := newTimeRemaining },
      { preTransition := pre, transitioned := false, forceStop := false })

/-- The `skip` command of usePomodoro: apply the transition computation
immediately; the side effect is a station search when skipping into a
break, a 1-second fade-out when skipping into work. -/
def skip (set : PomodoroSettings) (prev : PomodoroState) :
    PomodoroState × SideEffect :=
  let nextPhase := getNextPhase set prev.phase prev.completedSessions
  let nextDuration := getDurationForPhase set nextPhase
  let eff : SideEffect := if nextPhase ≠ .work then .stationSearch else .stopFade 1
  if prev.phase = .work then
    ({ prev with
        phase := nextPhase
        timeRemaining := nextDuration
        completedSessions := prev.completedSessions + 1 }, eff)
  else
    ({ prev with
        phase := nextPhase
        timeRemaining := nextDuration
        currentCycle :=
          (if nextPhase = .work then prev.currentCycle + 1 else prev.currentCycle) },
      eff)

/-- Trace of effects emitted by n consecutive ticks of the running timer. -/
def tickTrace (set : PomodoroSettings) (audioActive : Bool) :
    PomodoroState → Nat → List TickEffects
  | _, 0 => []
  | s, n + 1 =>
    (tick set audioActive s).2 :: tickTrace set audioActive (tick set audioActive s).1 n

/-- Effect fired 3 seconds before a phase boundary: a station search when
the current phase is work, a 3-second fade-out when it is a break. -/
def preEffect (ph : PomodoroPhase) : SideEffect :=
  if ph = .work then .stationSearch else .stopFade 3

/-- Neutral effects record, used as the default for list indexing. -/
def dfltEff : TickEffects :=
  { preTransition := none, transitioned := false, forceStop := false }

/-- A tick taken with more than one second remaining decrements the clock,
does not transition, and fires the pre-transition effect exactly when the
decremented time is 3. -/
lemma tick_no_transition (set : PomodoroSettings) (ap : Bool)
    (s : PomodoroState) (h : 1 < s.timeRemaining) :
    tick set ap s =
      ({ s with timeRemaining := s.timeRemaining - 1 },
        { preTransition :=
            (if s.timeRemaining - 1 = 3 then some (preEffect s.phase) else none)
          transitioned := false
          forceStop := false }) := by
  have hle : ¬ (s.timeRemaining - 1 ≤ 0) := by omega
  simp only [tick, hle, if_false, preEffect]
  by_cases h3 : s.timeRemaining - 1 = 3
  · by_cases hp : s.phase = .work <;> simp [h3, hp]
  · simp [h3]

/-- Length of a tick trace is the number of ticks taken. -/
lemma tickTrace_length (set : PomodoroSettings) (ap : Bool) :
    ∀ (n : Nat) (s : PomodoroState), (tickTrace set ap s n).length = n := by
  intro n
  induction n with
  | zero => intro s; simp [tickTrace]
  | succ m ih => intro s; simp [tickTrace, ih]

/-- Characterization of a run of T ticks starting with T seconds left: the
pre-transition effect fires exactly at the tick whose decremented time is 3
and the transition happens exactly at the final tick. -/
lemma tickTrace_getD (set : PomodoroSettings) (ap : Bool) :
    ∀ (T : Nat) (s : PomodoroState), s.timeRemaining = (T : Int) →
      ∀ i, i < T →
        (((tickTrace set ap s T).getD i dfltEff).preTransition =
          (if i + 4 = T then some (preEffect s.phase) else none)) ∧
        ((((tickTrace set ap s T).getD i dfltEff).transitioned = true) ↔ i + 1 = T) := by
  intro T
  induction T with
  | zero => intro s hs i hi; omega
  | succ n ih =>
    intro s hs i hi
    by_cases hn : n = 0
    · subst hn
      have hi0 : i = 0 := by omega
      subst hi0
      simp only [tickTrace, tick, hs, List.getD_cons_zero]
      norm_num
      split <;> simp
    · have h1 : 1 < s.timeRemaining := by omega
      rw [tickTrace, tick_no_transition set ap s h1]
      cases i with
      | zero =>
        simp only [List.getD_cons_zero]
        constructor
        · have ht : s.timeRemaining - 1 = (n : Int) := by omega
          rw [ht]
          by_cases h3 : n = 3
          · subst h3; norm_num
          · have c1 : ¬ ((n : Int) = 3) := by omega
            have c2 : ¬ ((0 : Nat) + 4 = n + 1) := by omega
            rw [if_neg c1, if_neg c2]
        · simp
          omega
      | succ j =>
        have hs1 : ({ s with timeRemaining := s.timeRemaining - 1 } :
            PomodoroState).timeRemaining = (n : Int) := by
          simp [hs]
        have hrec := ih { s with timeRemaining := s.timeRemaining - 1 } hs1 j (by omega)
        simp only [List.getD_cons_succ]
        constructor
        · rw [hrec.1]
          have hiff : (j + 4 = n) ↔ (j + 1 + 4 = n + 1) := by omega
          by_cases hj : j + 4 = n
          · simp [hj, hiff.mp hj]
          · rw [if_neg hj, if_neg (by omega)]
        · rw [hrec.2]; omega

/-- C2: in a run of ticks starting at timeRemaining = T with T > 3, the
pre-transition side effect (a station search when leaving work, a 3-second
fade-out when leaving a break) fires at exactly the one tick whose
decremented time is 3 (index T - 4), and the phase transition fires only
at the tick where the decremented time becomes 0 (index T - 1), never at
an earlier tick. -/
theorem tick_run_sideeffect_once (set : PomodoroSettings) (ap : Bool)
    (s : PomodoroState) (T : Nat) (hT : 3 < T)
    (hs : s.timeRemaining = (T : Int)) :
    ∀ i, i < T →
      (((tickTrace set ap s T).getD i dfltEff).preTransition =
        (if i = T - 4 then
          some (if s.phase = PomodoroPhase.work then SideEffect.stationSearch
            else SideEffect.stopFade 3)
        else none)) ∧
      ((((tickTrace set ap s T).getD i dfltEff).transitioned = true) ↔ i = T - 1) := by
  intro i hi
  obtain ⟨h1, h2⟩ := tickTrace_getD set ap T s hs i hi
  constructor
  · rw [h1]
    have hiff : (i + 4 = T) ↔ (i = T - 4) := by omega
    by_cases hc : i + 4 = T
    · rw [if_pos hc, if_pos (hiff.mp hc)]
      simp [preEffect]
    · rw [if_neg hc, if_neg (fun hl => hc (by omega))]
  · rw [h2]; omega

/-- Concrete instance of the tick-run property: a work phase with 5
seconds left fires the station search at the second tick and transitions
at the fifth. -/
theorem tick_run_sideeffect_once_witness :
    (((tickTrace DEFAULT_SETTINGS false
        { phase := .work, timeRemaining := 5, isRunning := true,
          completedSessions := 0, currentCycle := 1 } 5).getD 1 dfltEff).preTransition =
      (if 1 = 5 - 4 then
        some (if PomodoroPhase.work = PomodoroPhase.work then SideEffect.stationSearch
          else SideEffect.stopFade 3)
      else none)) ∧
    ((((tickTrace DEFAULT_SETTINGS false
        { phase := .work, timeRemaining := 5, isRunning := true,
          completedSessions := 0, currentCycle := 1 } 5).getD 1 dfltEff).transitioned = true) ↔
      1 = 5 - 1) :=
  tick_run_sideeffect_once DEFAULT_SETTINGS false
    { phase := .work, timeRemaining := 5, isRunning := true,
      completedSessions := 0, currentCycle := 1 } 5 (by decide) (by decide) 1 (by decide)

/-- C1: the phase-transition function returns, from work, longBreak exactly
when `(completedSessions + 1) mod sessionsUntilLongBreak = 0` and
shortBreak otherwise; from either break phase it always returns work. -/
theorem getNextPhase_spec (set : PomodoroSettings) (completedSessions : Nat) :
    getNextPhase set .work completedSessions =
      (if (completedSessions + 1) % set.sessionsUntilLongBreak = 0
        then PomodoroPhase.longBreak else PomodoroPhase.shortBreak) ∧
    getNextPhase set .shortBreak completedSessions = .work ∧
    getNextPhase set .longBreak completedSessions = .work := by
  refine ⟨?_, rfl, rfl⟩
  simp [getNextPhase]

/-- C5: on any tick or skip, completedSessions increases by exactly 1 on a
work-to-break transition and is otherwise unchanged, and currentCycle
increases by exactly 1 on a break-to-work transition and is otherwise
unchanged. -/
theorem counters_update (set : PomodoroSettings) (audioActive : Bool)
    (s : PomodoroState) :
    ((tick set audioActive s).1.completedSessions =
      if s.phase = PomodoroPhase.work ∧ s.timeRemaining ≤ 1 then
        s.completedSessions + 1
      else s.completedSessions) ∧
    ((tick set audioActive s).1.currentCycle =
      if s.phase ≠ PomodoroPhase.work ∧ s.timeRemaining ≤ 1 then
        s.currentCycle + 1
      else s.currentCycle) ∧
    ((skip set s).1.completedSessions =
      if s.phase = PomodoroPhase.work then s.completedSessions + 1
      else s.completedSessions) ∧
    ((skip set s).1.currentCycle =
      if s.phase = PomodoroPhase.work then s.currentCycle
      else s.currentCycle + 1) := by
  obtain ⟨ph, t, run, cs, cc⟩ := s
  cases ph <;>
    simp only [tick, skip, getNextPhase, getDurationForPhase] <;>
    (by_cases ht : t - 1 ≤ 0) <;>
    simp_all <;>
    first
      | omega
      | (split <;> simp_all)

/-! ## Station selection retry loop (playRandomStation in usePomodoro) -/

/-- Station descriptor; the loop only reads the uuid and stream URLs. -/
structure RadioStation where
  stationuuid : String
  name : String
  url : String
  url_resolved : Option String
  deriving DecidableEq, Repr

/-- Stream source chosen by the player: `station.url_resolved || station.url`. -/
def stationSrc (s : RadioStation) : String :=
  s.url_resolved.getD s.url

/-- Placeholder used for the (unreachable, by the pick bound) out-of-range
list read. -/
def dummyStation : RadioStation :=
  { stationuuid := "", name := "", url := "", url_resolved := none }

/-- Observable events of one station-selection round: a call to
`audio.playStation` on a candidate, and an `onStationSelected` report. -/
inductive RetryEvent where
  | playAttempt (s : RadioStation)
  | selected (s : RadioStation)
  deriving DecidableEq, Repr

/-- Predicate picking out playStation calls in an event trace. -/
def isPlayAttempt : RetryEvent → Bool
  | .playAttempt _ => true
  | _ => false

/-- Predicate picking out onStationSelected reports in an event trace. -/
def isSelected : RetryEvent → Bool
  | .selected _ => true
  | _ => false

/-- Core retry loop of `playRandomStation`.  `playOk` is the outcome of
`audio.playStation` for each candidate, `pick` the random draw for a given
attempt (the source uses `Math.floor(Math.random() * length)`, an
arbitrary index below the pool length).  On failure the candidate is
spliced out of the per-round pool and the attempt counter increments; the
loop runs while `attempts < maxRetries` and the pool is non-empty.  The
result is the emitted event trace and the successfully played station, if
any; playStation rejections are caught inside the loop, so the function
returns normally in every case. -/
def playRandomLoop (playOk : RadioStation → Bool) (pick : Nat → Nat → Nat)
    (maxRetries attempts : Nat) (availableStations : List RadioStation) :
    List RetryEvent × Option RadioStation :=
  if h : attempts < maxRetries ∧ availableStations ≠ [] then
    let randomIndex := pick attempts availableStations.length
    let station := availableStations.getD randomIndex dummyStation
    if playOk station then
      ([.playAttempt station, .selected station], some station)
    else
      let rest := playRandomLoop playOk pick maxRetries (attempts + 1)
        (availableStations.eraseIdx randomIndex)
      (.playAttempt station :: rest.1, rest.2)
  else ([], none)
termination_by maxRetries - attempts
decreasing_by
  simp_wf
  omega

/-- The `playRandomStation` routine: an empty catalog aborts with a
warning; otherwise the loop runs on a copy (`[...stationsRef.current]`) of
the catalog with a cap of 5 attempts.  The third component is the catalog
reference after the call: the source splices only the copy, so the
original list is returned unchanged. -/
def playRandomStation (playOk : RadioStation → Bool) (pick : Nat → Nat → Nat)
    (catalog : List RadioStation) :
    List RetryEvent × Option RadioStation × List RadioStation :=
  if catalog = [] then ([], none, catalog)
  else
    let availableStations := catalog
    let r := playRandomLoop playOk pick 5 0 availableStations
    (r.1, r.2, catalog)

/-- When every pool candidate fails, the loop makes exactly
`min (maxRetries - attempts) pool.length` playStation calls, reports no
station, and emits nothing but playAttempt events. -/
lemma playRandomLoop_all_fail (playOk : RadioStation → Bool)
    (pick : Nat → Nat → Nat) (hpick : ∀ a n, 0 < n → pick a n < n) :
    ∀ (fuel maxRetries attempts : Nat) (pool : List RadioStation),
      maxRetries - attempts = fuel →
      (∀ s ∈ pool, playOk s = false) →
      ((playRandomLoop playOk pick maxRetries attempts pool).1.countP isPlayAttempt =
        min (maxRetries - attempts) pool.length) ∧
      (playRandomLoop playOk pick maxRetries attempts pool).2 = none ∧
      (∀ e ∈ (playRandomLoop playOk pick maxRetries attempts pool).1,
        isPlayAttempt e = true) := by
  intro fuel
  induction fuel with
  | zero =>
    intro m a pool hf hfail
    have hc : ¬ (a < m ∧ pool ≠ []) := by
      rintro ⟨h1, _⟩; omega
    rw [playRandomLoop, dif_neg hc]
    simp
    omega
  | succ f ih =>
    intro m a pool hf hfail
    rw [playRandomLoop]
    by_cases hc : a < m ∧ pool ≠ []
    · rw [dif_pos hc]
      have hlen : 0 < pool.length := List.length_pos.mpr hc.2
      have hidx : pick a pool.length < pool.length := hpick a _ hlen
      have hmem : pool.getD (pick a pool.length) dummyStation ∈ pool := by
        rw [List.getD_eq_getElem pool dummyStation hidx]
        exact List.getElem_mem hidx
      have hplay : playOk (pool.getD (pick a pool.length) dummyStation) = false :=
        hfail _ hmem
      simp only [hplay, if_false, Bool.false_eq_true]
      have hrec := ih m (a + 1) (pool.eraseIdx (pick a pool.length)) (by omega)
        (fun s hs => hfail s (List.eraseIdx_subset pool (pick a pool.length) hs))
      refine ⟨?_, hrec.2.1, ?_⟩
      · rw [List.countP_cons, hrec.1]
        have hel : (pool.eraseIdx (pick a pool.length)).length = pool.length - 1 := by
          rw [List.length_eraseIdx]
          simp [hidx]
        rw [hel]
        simp [isPlayAttempt]
        omega
      · intro e he
        rcases List.mem_cons.mp he with he0 | he1
        · subst he0; rfl
        · exact hrec.2.2 e he1
    · rw [dif_neg hc]
      simp
      rcases not_and_or.mp hc with h1 | h2
      · omega
      · have : pool = [] := not_not.mp h2
        simp [this]

/-- C3: with a non-empty candidate list in which every candidate fails,
the selection round calls playStation exactly min 5 |catalog| times (so at
most 5 and never 6), reports overall failure (no selected station) without
raising an error (the routine returns normally), and hands back the
original catalog unchanged. -/
theorem retry_bounded (playOk : RadioStation → Bool) (pick : Nat → Nat → Nat)
    (catalog : List RadioStation)
    (hpick : ∀ a n, 0 < n → pick a n < n)
    (hne : catalog ≠ [])
    (hfail : ∀ s ∈ catalog, playOk s = false) :
    ((playRandomStation playOk pick catalog).1.countP isPlayAttempt =
      min 5 catalog.length) ∧
    ((playRandomStation playOk pick catalog).1.countP isPlayAttempt ≤ 5) ∧
    ((playRandomStation playOk pick catalog).1.countP isSelected = 0) ∧
    ((playRandomStation playOk pick catalog).2.1 = none) ∧
    ((playRandomStation playOk pick catalog).2.2 = catalog) := by
  have hloop := playRandomLoop_all_fail playOk pick hpick 5 5 0 catalog rfl hfail
  unfold playRandomStation
  rw [if_neg hne]
  refine ⟨hloop.1, ?_, ?_, hloop.2.1, rfl⟩
  · rw [hloop.1]; omega
  · rw [List.countP_eq_zero]
    intro e he
    have := hloop.2.2 e he
    cases e <;> simp_all [isPlayAttempt, isSelected]

/-- Concrete instance of the retry bound: two failing candidates are tried
twice, nothing is selected, and the catalog comes back unchanged. -/
theorem retry_bounded_witness :
    ((playRandomStation (fun _ => false) (fun _ _ => 0)
        [dummyStation, { dummyStation with stationuuid := "b" }]).1.countP isPlayAttempt =
      min 5 [dummyStation, { dummyStation with stationuuid := "b" }].length) ∧
    ((playRandomStation (fun _ => false) (fun _ _ => 0)
        [dummyStation, { dummyStation with stationuuid := "b" }]).1.countP isPlayAttempt ≤ 5) ∧
    ((playRandomStation (fun _ => false) (fun _ _ => 0)
        [dummyStation, { dummyStation with stationuuid := "b" }]).1.countP isSelected = 0) ∧
    ((playRandomStation (fun _ => false) (fun _ _ => 0)
        [dummyStation, { dummyStation with stationuuid := "b" }]).2.1 = none) ∧
    ((playRandomStation (fun _ => false) (fun _ _ => 0)
        [dummyStation, { dummyStation with stationuuid := "b" }]).2.2 =
      [dummyStation, { dummyStation with stationuuid := "b" }]) :=
  retry_bounded (fun _ => false) (fun _ _ => 0)
    [dummyStation, { dummyStation with stationuuid := "b" }]
    (fun _ _ h => h) (by simp) (fun _ _ => rfl)

/-- A successful loop run reports the played station exactly once, as the
final event, immediately after its successful playAttempt; every earlier
event is a failed playAttempt. -/
lemma playRandomLoop_success (playOk : RadioStation → Bool)
    (pick : Nat → Nat → Nat) :
    ∀ (fuel maxRetries attempts : Nat) (pool : List RadioStation)
      (st : RadioStation),
      maxRetries - attempts = fuel →
      (playRandomLoop playOk pick maxRetries attempts pool).2 = some st →
      playOk st = true ∧
      ∃ pre, (playRandomLoop playOk pick maxRetries attempts pool).1 =
          pre ++ [RetryEvent.playAttempt st, RetryEvent.selected st] ∧
        ∀ e ∈ pre, ∃ s2, e = RetryEvent.playAttempt s2 ∧ playOk s2 = false := by
  intro fuel
  induction fuel with
  | zero =>
    intro m a pool st hf hsucc
    have hc : ¬ (a < m ∧ pool ≠ []) := by
      rintro ⟨h1, _⟩; omega
    rw [playRandomLoop, dif_neg hc] at hsucc
    simp at hsucc
  | succ f ih =>
    intro m a pool st hf hsucc
    rw [playRandomLoop] at hsucc ⊢
    by_cases hc : a < m ∧ pool ≠ []
    · rw [dif_pos hc] at hsucc ⊢
      by_cases hplay : playOk (pool.getD (pick a pool.length) dummyStation) = true
      · simp only [hplay, if_true] at hsucc ⊢
        have hst : pool.getD (pick a pool.length) dummyStation = st := by
          simpa using hsucc
        subst hst
        exact ⟨hplay, [], rfl, by simp⟩
      · simp only [hplay, if_false] at hsucc ⊢
        have hrec := ih m (a + 1) (pool.eraseIdx (pick a pool.length)) st
          (by omega) hsucc
        obtain ⟨hok, pre, hpre, hfailed⟩ := hrec
        refine ⟨hok, RetryEvent.playAttempt
          (pool.getD (pick a pool.length) dummyStation) :: pre, ?_, ?_⟩
        · simp [hpre]
        · intro e he
          rcases List.mem_cons.mp he with he0 | he1
          · exact ⟨_, he0, by simpa using hplay⟩
          · exact hfailed e he1
    · rw [dif_neg hc] at hsucc
      simp at hsucc

/-- C8: on every successful selection round the chosen station is reported
exactly once, only after its playback attempt succeeded (the report is the
final event, directly after the successful playStation call), and never
after a failed attempt. -/
theorem selected_once_after_playback (playOk : RadioStation → Bool)
    (pick : Nat → Nat → Nat) (catalog : List RadioStation) (st : RadioStation)
    (hsucc : (playRandomStation playOk pick catalog).2.1 = some st) :
    playOk st = true ∧
    ((playRandomStation playOk pick catalog).1.countP isSelected = 1) ∧
    ∃ pre, (playRandomStation playOk pick catalog).1 =
        pre ++ [RetryEvent.playAttempt st, RetryEvent.selected st] ∧
      ∀ e ∈ pre, ∃ s2, e = RetryEvent.playAttempt s2 ∧ playOk s2 = false := by
  by_cases hcat : catalog = []
  · rw [playRandomStation, if_pos hcat] at hsucc
    simp at hsucc
  · rw [playRandomStation, if_neg hcat] at hsucc ⊢
    obtain ⟨hok, pre, hpre, hfailed⟩ :=
      playRandomLoop_success playOk pick 5 5 0 catalog st rfl hsucc
    refine ⟨hok, ?_, pre, hpre, hfailed⟩
    rw [hpre, List.countP_append, List.countP_eq_zero.mpr, Nat.zero_add]
    · simp [isSelected]
    · intro e he
      obtain ⟨s2, hs2, _⟩ := hfailed e he
      subst hs2
      simp [isSelected]

/-- Concrete instance of the selection-report property: a single playable
candidate is attempted and then reported exactly once. -/
theorem selected_once_after_playback_witness :
    (fun _ => true : RadioStation → Bool) dummyStation = true ∧
    ((playRandomStation (fun _ => true) (fun _ _ => 0) [dummyStation]).1.countP
      isSelected = 1) ∧
    ∃ pre, (playRandomStation (fun _ => true) (fun _ _ => 0) [dummyStation]).1 =
        pre ++ [RetryEvent.playAttempt dummyStation, RetryEvent.selected dummyStation] ∧
      ∀ e ∈ pre, ∃ s2, e = RetryEvent.playAttempt s2 ∧
        (fun _ => true : RadioStation → Bool) s2 = false :=
  selected_once_after_playback (fun _ => true) (fun _ _ => 0) [dummyStation]
    dummyStation (by simp [playRandomStation, playRandomLoop])

/-! ## Audio engine (useAudioPlayer)

The engine owns two HTMLAudioElement resources (primary and crossfade),
two interval handles (fade and crossfade ramps) and the React state.
Asynchronous outcomes (click registration, canplay/error, play) are
passed in as booleans; each operation is the net state change of the
corresponding source function, with the element event handlers
(loadstart, canplaythrough, error, play, pause are attached to the main
element only) woven in where they fire. -/

/-- Playback element: source URL, volume and paused flag. -/
structure AudioElem where
  src : Option String
  volume : ℚ
  paused : Bool
  deriving DecidableEq, Repr

/-- A freshly constructed element (volume set to 0 right after creation). -/
def initElem : AudioElem := { src := none, volume := 0, paused := true }

/-- A pending volume ramp scheduled on the fade interval. -/
inductive FadeRamp where
  | inRamp (target duration : ℚ)
  | outRamp (start duration : ℚ)
  deriving DecidableEq, Repr

/-- Mirror of the AudioPlayerState React state record. -/
structure AudioPlayerState where
  isPlaying : Bool
  isLoading : Bool
  volume : ℚ
  currentStation : Option RadioStation
  error : Option String
  isCrossfading : Bool
  deriving DecidableEq, Repr

/-- Whole audio engine: state, both elements, both interval slots. -/
structure AudioSys where
  state : AudioPlayerState
  audioElem : AudioElem
  crossfadeElem : AudioElem
  fadeInterval : Option FadeRamp
  crossfadeInterval : Option FadeRamp
  deriving DecidableEq, Repr

/-- Initial engine as built by useAudioPlayer (volume defaults to 0.7). -/
def initAudioSys : AudioSys :=
  { state :=
      { isPlaying := false
        isLoading := false
        volume := 7 / 10
        currentStation := none
        error := none
        isCrossfading := false }
    audioElem := initElem
    crossfadeElem := initElem
    fadeInterval := none
    crossfadeInterval := none }

/-- The `clearFadeInterval` helper: cancel the pending fade ramp. -/
def clearFade (a : AudioSys) : AudioSys := { a with fadeInterval := none }

/-- Pause the main element; its pause handler sets `isPlaying` to false
when the element was actually playing (the event only fires then). -/
def pauseMain (a : AudioSys) : AudioSys :=
  { a with
      audioElem := { a.audioElem with paused := true }
      state := { a.state with
        isPlaying := (if a.audioElem.paused then a.state.isPlaying else false) } }

/-- Start the main element; its play handler sets `isPlaying` to true. -/
def playMain (a : AudioSys) : AudioSys :=
  { a with
      audioElem := { a.audioElem with paused := false }
      state := { a.state with isPlaying := true } }

/-- The `fadeIn` entry point: cancel any pending ramp, zero the element
volume and schedule a ramp toward the stored target volume.  The ramp
steps themselves fire later on the interval. -/
def fadeIn (duration : ℚ) (a : AudioSys) : AudioSys :=
  { a with
      audioElem := { a.audioElem with volume := 0 }
      fadeInterval := some (.inRamp a.state.volume duration) }

/-- Net effect of an awaited, uninterrupted `fadeOut(duration)`: the ramp
runs to its final step, which clears the interval, zeroes the element
volume and pauses the element (firing the pause handler). -/
def fadeOutAwaited (_duration : ℚ) (a : AudioSys) : AudioSys :=
  pauseMain
    { a with
        audioElem := { a.audioElem with volume := 0 }
        fadeInterval := none }

/-- The catch block of `playStation`: set the error, clear the playing,
loading and crossfading flags, re-throw. -/
def catchPlayFailure (a : AudioSys) : AudioSys :=
  { a with state := { a.state with
      error := some "Failed to play radio station"
      isPlaying := false
      isLoading := false
      isCrossfading := false } }

/-- The `playStation` operation.  The boolean result is true when the
promise rejected (the error is re-thrown to the retry loop).  The branch
condition mirrors `state.isPlaying && audioRef.current.volume > 0 &&
!audioRef.current.paused`.  In the sequential-transition branch the click
registration is awaited first, the new station is loaded into the
crossfade element, the primary fades out fully, the primary source is
switched to the loaded stream, played, faded in, and the crossfade element
is released.  In the fresh branch any pending ramp is cancelled, the
primary is paused and zeroed, the click is registered, the station loaded
into the primary (firing loadstart/canplaythrough or the error handler),
played and faded in. -/
def playStation (station : RadioStation) (clickOk loadOk playOk : Bool)
    (a : AudioSys) : AudioSys × Bool :=
  if a.state.isPlaying = true ∧ 0 < a.audioElem.volume ∧ a.audioElem.paused = false then
    if clickOk = false then (catchPlayFailure a, true)
    else
      let a1 := { a with crossfadeElem :=
        { a.crossfadeElem with src := some (stationSrc station), volume := 0 } }
      let a2 := { a1 with state := { a1.state with
          currentStation := some station
          error := none
          isLoading := true
          isCrossfading := true } }
      if loadOk = false then (catchPlayFailure a2, true)
      else
        let a3 := { a2 with state := { a2.state with isLoading := false } }
        let a4 := fadeOutAwaited 2 a3
        let a5 := { a4 with audioElem :=
          { a4.audioElem with src := a4.crossfadeElem.src, volume := 0 } }
        if playOk = false then (catchPlayFailure a5, true)
        else
          let a6 := fadeIn 2 (playMain a5)
          let a7 := { a6 with crossfadeElem := initElem }
          ({ a7 with state := { a7.state with isCrossfading := false } }, false)
  else
    let b1 := pauseMain (clearFade a)
    let b2 := { b1 with audioElem := { b1.audioElem with volume := 0 } }
    if clickOk = false then (catchPlayFailure b2, true)
    else
      let b3 := { b2 with audioElem :=
        { b2.audioElem with src := some (stationSrc station), volume := 0 } }
      let b4 := { b3 with state := { b3.state with
          currentStation := some station
          error := none } }
      let b5 := { b4 with state := { b4.state with isLoading := true, error := none } }
      if loadOk = false then
        let b6 := { b5 with state := { b5.state with
            isLoading := false
            error := some "Failed to load radio stream"
            isPlaying := false } }
        (catchPlayFailure b6, true)
      else
        let b6 := { b5 with state := { b5.state with isLoading := false } }
        if playOk = false then (catchPlayFailure b6, true)
        else (fadeIn 3 (playMain b6), false)

/-- The `stop` operation: cancel the ramp, pause, zero volume, clear the
playing flag and the current-station reference. -/
def stop (a : AudioSys) : AudioSys :=
  let a1 := pauseMain (clearFade a)
  let a2 := { a1 with audioElem := { a1.audioElem with volume := 0 } }
  { a2 with state := { a2.state with isPlaying := false, currentStation := none } }

/-- The `stopWithFade` operation: awaited fade-out, then cancel the ramp,
pause, zero volume, clear station and playing flags and the error. -/
def stopWithFade (fadeDuration : ℚ) (a : AudioSys) : AudioSys :=
  let a1 := fadeOutAwaited fadeDuration a
  let a2 := pauseMain (clearFade a1)
  let a3 := { a2 with audioElem := { a2.audioElem with volume := 0 } }
  { a3 with state := { a3.state with
      currentStation := none
      isPlaying := false
      error := none } }

/-- The `pause` operation of the audio engine. -/
def pauseAudio (a : AudioSys) : AudioSys :=
  let a1 := pauseMain (clearFade a)
  { a1 with state := { a1.state with isPlaying := false } }

/-- The `resume` operation: a no-op without a current station, otherwise
restore the stored volume and play (recording an error on rejection). -/
def resumeAudio (playOk : Bool) (a : AudioSys) : AudioSys :=
  if a.state.currentStation = none then a
  else
    let a1 := { a with audioElem := { a.audioElem with volume := a.state.volume } }
    if playOk = true then playMain a1
    else { a1 with state := { a1.state with error := some "Failed to resume audio" } }

/-- The `setVolume` operation: clamp to the unit interval, store the
target, and apply to the live element when playing and not crossfading. -/
def setVolume (volume : ℚ) (a : AudioSys) : AudioSys :=
  let clampedVolume := max 0 (min 1 volume)
  let a1 := { a with state := { a.state with volume := clampedVolume } }
  if a.state.isPlaying = true ∧ a.state.isCrossfading = false then
    { a1 with audioElem := { a1.audioElem with volume := clampedVolume } }
  else a1

/-- Audio part of the pomodoro `reset` command: force-stop when audio is
playing or a station is referenced. -/
def resetAudio (a : AudioSys) : AudioSys :=
  if a.state.isPlaying = true ∨ a.state.currentStation ≠ none then stop a else a

/-- C10: the stored target-volume field is written only by setVolume;
playStation (any outcome), stop, stopWithFade, pause, resume, fadeIn and
fadeOut all leave it unchanged, whatever they do to element volumes. -/
theorem target_volume_frame (a : AudioSys) (station : RadioStation)
    (clickOk loadOk playOk rOk : Bool) (d : ℚ) :
    ((playStation station clickOk loadOk playOk a).1.state.volume = a.state.volume) ∧
    ((stop a).state.volume = a.state.volume) ∧
    ((stopWithFade d a).state.volume = a.state.volume) ∧
    ((pauseAudio a).state.volume = a.state.volume) ∧
    ((resumeAudio rOk a).state.volume = a.state.volume) ∧
    ((fadeIn d a).state.volume = a.state.volume) ∧
    ((fadeOutAwaited d a).state.volume = a.state.volume) := by
  unfold playStation stop stopWithFade pauseAudio resumeAudio fadeIn
    fadeOutAwaited pauseMain playMain clearFade catchPlayFailure
  split_ifs <;> simp_all

/-- C6 fails on the code: from the initial (stopped, no station) state, a
playStation call whose load fails before playback starts leaves the
current-station reference non-null, because the source stores the station
before awaiting the load and its catch path never clears it. -/
theorem currentStation_nonnull_after_failed_load :
    ((playStation dummyStation true false true initAudioSys).1.state.currentStation =
      some dummyStation) ∧
    ((playStation dummyStation true false true initAudioSys).2 = true) ∧
    (initAudioSys.state.currentStation = none) := by decide

/-- C6 amended: the current-station reference tracks the station of the
last playStation call that got past click registration - it is stored
before the load and retained whether or not the load or play succeeds -
and it is cleared by stop and stopWithFade; it does not witness a
successful load. -/
theorem currentStation_tracks_last_attempt (a : AudioSys)
    (station : RadioStation) (loadOk playOk : Bool) (d : ℚ) :
    ((playStation station true loadOk playOk a).1.state.currentStation =
      some station) ∧
    ((stop a).state.currentStation = none) ∧
    ((stopWithFade d a).state.currentStation = none) := by
  unfold playStation stop stopWithFade fadeOutAwaited pauseMain playMain
    clearFade catchPlayFailure fadeIn
  split_ifs <;> simp_all

/-- C9 fails on the code: from the initial state, a playStation call whose
click registration fails never loads the station (the primary element
keeps no source) and never starts playback; the rejection propagates to
the caller.  Click registration is awaited inside the try block before any
load, so it is not best-effort. -/
theorem registerClick_failure_blocks_playback :
    ((playStation dummyStation false true true initAudioSys).2 = true) ∧
    ((playStation dummyStation false true true initAudioSys).1.audioElem.src = none) ∧
    ((playStation dummyStation false true true initAudioSys).1.state.isPlaying =
      false) := by decide

/-- C9 amended: in every state, a failed click registration aborts
playStation before the station is loaded: neither element receives the
station source, playback is not running afterwards, and the failure is
re-thrown to the caller. -/
theorem registerClick_failure_aborts (a : AudioSys) (station : RadioStation)
    (loadOk playOk : Bool) :
    ((playStation station false loadOk playOk a).2 = true) ∧
    ((playStation station false loadOk playOk a).1.audioElem.src =
      a.audioElem.src) ∧
    ((playStation station false loadOk playOk a).1.crossfadeElem.src =
      a.crossfadeElem.src) ∧
    ((playStation station false loadOk playOk a).1.state.isPlaying = false) := by
  unfold playStation pauseMain clearFade catchPlayFailure
  split_ifs <;> simp_all

/-- Volume reached at step k of a pending ramp, per the interval callbacks
of fadeIn and fadeOut. -/
def rampValue (r : FadeRamp) (k : Nat) : ℚ :=
  match r with
  | .inRamp target _ => min (target / 50 * k) target
  | .outRamp start _ => max (start - start / 50 * k) 0

/-- Final interval step of a pending ramp: a fade-in settles at the target
volume, a fade-out zeroes the volume and pauses the element; either way
the interval clears itself. -/
def rampFinishOp (r : FadeRamp) (a : AudioSys) : AudioSys :=
  match r with
  | .inRamp target _ =>
      { a with
          audioElem := { a.audioElem with volume := target }
          fadeInterval := none }
  | .outRamp _ _ =>
      pauseMain
        { a with
            audioElem := { a.audioElem with volume := 0 }
            fadeInterval := none }

/-- Steps of the audio system as invoked anywhere in the application: the
pomodoro hook calls playStation, stopWithFade and stop; the UI calls
pause, resume and setVolume; fadeIn and fadeOut are exported entry points;
and a pending fade ramp may fire an interval step or its final step.  The
exported `crossfade` helper (the only writer of the crossfade interval) is
never invoked anywhere in the repository, so it is not a step. -/
inductive AudioStep : AudioSys → AudioSys → Prop where
  | play (station : RadioStation) (clickOk loadOk playOk : Bool) (a : AudioSys) :
      AudioStep a (playStation station clickOk loadOk playOk a).1
  | stopStep (a : AudioSys) : AudioStep a (stop a)
  | stopFadeStep (d : ℚ) (a : AudioSys) : AudioStep a (stopWithFade d a)
  | pauseStep (a : AudioSys) : AudioStep a (pauseAudio a)
  | resumeStep (ok : Bool) (a : AudioSys) : AudioStep a (resumeAudio ok a)
  | setVolumeStep (v : ℚ) (a : AudioSys) : AudioStep a (setVolume v a)
  | fadeInStep (d : ℚ) (a : AudioSys) : AudioStep a (fadeIn d a)
  | fadeOutStep (d : ℚ) (a : AudioSys) : AudioStep a (fadeOutAwaited d a)
  | rampMid (a : AudioSys) (r : FadeRamp) (k : Nat)
      (h : a.fadeInterval = some r) :
      AudioStep a { a with audioElem := { a.audioElem with volume := rampValue r k } }
  | rampFinish (a : AudioSys) (r : FadeRamp) (h : a.fadeInterval = some r) :
      AudioStep a (rampFinishOp r a)

/-- States of the audio engine reachable from construction through the
operations the application actually performs. -/
def ReachableAudio (a : AudioSys) : Prop :=
  Relation.ReflTransGen AudioStep initAudioSys a

/-- No application-invoked operation touches the crossfade interval. -/
lemma audioStep_crossfadeInterval {a b : AudioSys} (h : AudioStep a b) :
    b.crossfadeInterval = a.crossfadeInterval := by
  cases h with
  | play station clickOk loadOk playOk a =>
    unfold playStation pauseMain playMain clearFade catchPlayFailure
      fadeOutAwaited fadeIn
    split_ifs <;> rfl
  | rampFinish a r h => cases r <;> rfl
  | _ =>
    first
      | rfl
      | · simp only [stop, stopWithFade, pauseAudio, resumeAudio, setVolume,
            fadeIn, fadeOutAwaited, pauseMain, playMain, clearFade]
          split_ifs <;> rfl

/-- In every reachable audio state the crossfade interval slot is empty:
nothing in the application ever schedules a crossfade ramp. -/
lemma reachable_crossfadeInterval_none (a : AudioSys) (h : ReachableAudio a) :
    a.crossfadeInterval = none := by
  induction h with
  | refl => rfl
  | tail _ hstep ih => rw [audioStep_crossfadeInterval hstep, ih]

/-- C7: calling reset while a fade ramp is pending in any reachable state
with audio active (playing, or a station referenced, as in the mid-fade
scenario) yields a state with no current station, not playing, and no
pending fade or crossfade ramp left to fire. -/
theorem reset_cancels_pending_ramps (a : AudioSys) (hreach : ReachableAudio a)
    (_hfade : a.fadeInterval ≠ none)
    (hactive : a.state.isPlaying = true ∨ a.state.currentStation ≠ none) :
    ((resetAudio a).state.currentStation = none) ∧
    ((resetAudio a).state.isPlaying = false) ∧
    ((resetAudio a).fadeInterval = none) ∧
    ((resetAudio a).crossfadeInterval = none) := by
  have hcross : a.crossfadeInterval = none :=
    reachable_crossfadeInterval_none a hreach
  unfold resetAudio
  rw [if_pos hactive]
  unfold stop pauseMain clearFade
  exact ⟨rfl, rfl, rfl, hcross⟩

/-- Concrete instance of the reset property: reset during the fade-in
ramp pending right after a successful playStation from the initial state
clears the station, stops playback and leaves no ramp. -/
theorem reset_cancels_pending_ramps_witness :
    ((resetAudio (playStation dummyStation true true true initAudioSys).1).state.currentStation
      = none) ∧
    ((resetAudio (playStation dummyStation true true true initAudioSys).1).state.isPlaying
      = false) ∧
    ((resetAudio (playStation dummyStation true true true initAudioSys).1).fadeInterval
      = none) ∧
    ((resetAudio (playStation dummyStation true true true initAudioSys).1).crossfadeInterval
      = none) :=
  reset_cancels_pending_ramps (playStation dummyStation true true true initAudioSys).1
    (Relation.ReflTransGen.single
      (AudioStep.play dummyStation true true true initAudioSys))
    (by decide) (by decide)

/-! ## Sequential transition trace (playing branch of playStation)

To reason about audibility at every instant of the sequential transition,
the volume-relevant moments of the playing branch are laid out as a list
of snapshots, including every discrete step of the 2-second fade-out and
fade-in ramps (50 steps each, exactly the interval-callback formulas of
fadeOut and fadeIn). -/

/-- Snapshot of the two elements during a sequential transition: primary
volume and paused flag, whether the primary source has already been
switched to the new stream, and the crossfade element volume (the new
stream sits in the crossfade element until the switch). -/
structure TransSnapshot where
  pVol : ℚ
  pPaused : Bool
  pSrcNew : Bool
  tVol : ℚ
  deriving DecidableEq, Repr

/-- Audible volume of the incoming (transitional) stream: the primary
element once the source switch has happened, the crossfade element before
it. -/
def newStreamVol (s : TransSnapshot) : ℚ :=
  (if s.pSrcNew then s.pVol else 0) + s.tVol

/-- Audible volume of the outgoing stream: the primary element until the
source switch, nothing afterwards (the old stream is detached). -/
def oldStreamVol (s : TransSnapshot) : ℚ :=
  if s.pSrcNew then 0 else s.pVol

/-- Snapshots at the interval steps of `fadeOut` on the primary:
`volume = max(startVolume - volumeStep * currentStep, 0)` for steps
0..49, primary still playing the old stream. -/
def fadeOutSnapshots (v0 : ℚ) : List TransSnapshot :=
  (List.range 50).map fun k =>
    { pVol := max (v0 - v0 / 50 * k) 0, pPaused := false, pSrcNew := false, tVol := 0 }

/-- Snapshots at the interval steps of `fadeIn` after the switch:
`volume = min(volumeStep * currentStep, targetVolume)` for steps 0..49. -/
def fadeInSnapshots (target : ℚ) : List TransSnapshot :=
  (List.range 50).map fun k =>
    { pVol := min (target / 50 * k) target, pPaused := false, pSrcNew := true, tVol := 0 }

/-- Phase of the sequential transition before the source switch: the old
stream plays at volume v0 while the new stream loads in the crossfade
element at volume 0, then the primary fades out and is paused by the final
fade-out step. -/
def seqPreSwitch (v0 : ℚ) : List TransSnapshot :=
  { pVol := v0, pPaused := false, pSrcNew := false, tVol := 0 } ::
    (fadeOutSnapshots v0 ++
      [{ pVol := 0, pPaused := true, pSrcNew := false, tVol := 0 }])

/-- Phase after the source switch: primary source set to the loaded
stream at volume 0 (still paused), then played, faded in step by step, and
settled at the target volume while the crossfade element is released. -/
def seqPostSwitch (target : ℚ) : List TransSnapshot :=
  { pVol := 0, pPaused := true, pSrcNew := true, tVol := 0 } ::
    { pVol := 0, pPaused := false, pSrcNew := true, tVol := 0 } ::
      (fadeInSnapshots target ++
        [{ pVol := target, pPaused := false, pSrcNew := true, tVol := 0 }])

/-- Complete snapshot trace of one uninterrupted sequential transition. -/
def seqTransitionTrace (v0 target : ℚ) : List TransSnapshot :=
  seqPreSwitch v0 ++ seqPostSwitch target

/-- C4: during a sequential transition the two stations are never audible
at once: up to and including the moment the primary reaches volume 0 and
is paused (the last pre-switch snapshot), the incoming stream is never
audible; and from the source switch onward the outgoing stream is never
audible.  In particular the primary reaches 0 and pauses strictly before
the incoming stream's volume ever exceeds 0. -/
theorem seq_transition_exclusive (v0 target : ℚ) :
    (∀ s ∈ (seqTransitionTrace v0 target).take (seqPreSwitch v0).length,
      newStreamVol s = 0) ∧
    (((seqTransitionTrace v0 target).take (seqPreSwitch v0).length).getLast? =
      some { pVol := 0, pPaused := true, pSrcNew := false, tVol := 0 }) ∧
    (∀ s ∈ (seqTransitionTrace v0 target).drop (seqPreSwitch v0).length,
      oldStreamVol s = 0) := by
  rw [seqTransitionTrace, List.take_left, List.drop_left]
  refine ⟨?_, ?_, ?_⟩
  · intro s hs
    rw [seqPreSwitch] at hs
    rcases List.mem_cons.mp hs with h0 | hs1
    · subst h0; simp [newStreamVol]
    · rcases List.mem_append.mp hs1 with h1 | h2
      · obtain ⟨k, _, hk⟩ := List.mem_map.mp h1
        subst hk; simp [newStreamVol]
      · rw [List.mem_singleton.mp h2]; simp [newStreamVol]
  · rw [seqPreSwitch, ← List.cons_append, List.getLast?_concat]
  · intro s hs
    rw [seqPostSwitch] at hs
    rcases List.mem_cons.mp hs with h0 | hs1
    · subst h0; simp [oldStreamVol]
    · rcases List.mem_cons.mp hs1 with h1 | hs2
      · subst h1; simp [oldStreamVol]
      · rcases List.mem_append.mp hs2 with h2 | h3
        · obtain ⟨k, _, hk⟩ := List.mem_map.mp h2
          subst hk; simp [oldStreamVol]
        · rw [List.mem_singleton.mp h3]; simp [oldStreamVol]

/-- Concrete instance of the audibility property at the default volume:
the opening snapshot of the pre-switch phase carries no new-stream audio,
and the first post-switch snapshot carries no old-stream audio. -/
theorem seq_transition_exclusive_witness :
    newStreamVol { pVol := 7 / 10, pPaused := false, pSrcNew := false, tVol := 0 } = 0 ∧
    oldStreamVol { pVol := 0, pPaused := true, pSrcNew := true, tVol := 0 } = 0 :=
  ⟨(seq_transition_exclusive (7 / 10) (7 / 10)).1 _
      (by rw [seqTransitionTrace, List.take_left, seqPreSwitch]
          exact List.mem_cons_self _ _),
    (seq_transition_exclusive (7 / 10) (7 / 10)).2.2 _
      (by rw [seqTransitionTrace, List.drop_left, seqPostSwitch]
          exact List.mem_cons_self _ _)⟩

end Pomoradio
